import Mathlib

/-!
Verification development for the browser client of the notes-to-mindmap
application (frontend/app.js and frontend/auth.js).

The JavaScript sources are embedded shallowly:

* JSON values produced by response parsing become the inductive `Json`;
  JavaScript truthiness becomes `truthy`.
* A fetch `Response` is a record of status, content type, raw body text and
  the outcome of parsing that body as JSON; the one-shot body stream of the
  fetch API is modelled by threading a `bodyUsed` flag through the body
  reading operations `Response.jsonOp` and `Response.textOp`.
* Exceptions become `Except` values; the distinguished JavaScript error
  shapes the client can raise or observe are collected in `JsError`.
* DOM state touched by the scripts (status region, busy flag, text output,
  concept list, graph containers, auth overlay, session chip) is carried in
  explicit state records; each handler becomes a state transformer.
* The visualization collaborator (vis-network) is modelled by a state
  `VisState` that allocates fresh instance identifiers on construction and
  records destroyed identifiers; its layout-relevant configuration is kept
  in `VisOpts`.
-/

/-- A JSON value, as produced by parsing a response body.  Numbers are
modelled as integers: no claim under consideration depends on non-integral
numerics, and floating point is out of scope. -/
inductive Json where
  | null : Json
  | bool : Bool → Json
  | num : Int → Json
  | str : String → Json
  | arr : List Json → Json
  | obj : List (String × Json) → Json

/-- First-match field lookup in an object.  Objects coming out of a JSON
parse are assumed duplicate-key free, so first match and last match agree. -/
def lookupFld : List (String × Json) → String → Option Json
  | [], _ => none
  | (k, v) :: rest, key => if k = key then some v else lookupFld rest key

/-- Property access `v.k` on a possibly-absent value: `undefined` (here
`none`) unless the value is an object carrying the key.  This also models
optional chaining, since access on `none` yields `none`. -/
def jget (v : Option Json) (k : String) : Option Json :=
  match v with
  | some (Json.obj fs) => lookupFld fs k
  | _ => none

/-- JavaScript truthiness of a possibly-absent value: `undefined`, `null`,
`false`, `0` and the empty string are falsy; everything else (including
empty arrays and objects) is truthy. -/
def truthy : Option Json → Bool
  | none => false
  | some Json.null => false
  | some (Json.bool b) => b
  | some (Json.num n) => if n = 0 then false else true
  | some (Json.str s) => if s = "" then false else true
  | some (Json.arr _) => true
  | some (Json.obj _) => true

/-- JavaScript string coercion of a value.  Array and object rendering is a
placeholder: no claim exercises stringification of composite values. -/
def jsToStringV : Json → String
  | Json.null => "null"
  | Json.bool true => "true"
  | Json.bool false => "false"
  | Json.num n => toString n
  | Json.str s => s
  | Json.arr _ => ""
  | Json.obj _ => "[object Object]"

/-- String coercion of a possibly-absent value (`undefined` prints as such). -/
def jsToString : Option Json → String
  | none => "undefined"
  | some v => jsToStringV v

/-- The JavaScript fallback `v or-else d` on values: keeps `v` when truthy,
yields the default otherwise. -/
def jsOrElse (v : Option Json) (d : Json) : Json :=
  if truthy v then
    match v with
    | some x => x
    | none => d
  else d

/-- Whether the first character list starts the second. -/
def leadsWith : List Char → List Char → Bool
  | [], _ => true
  | _ :: _, [] => false
  | p :: ps, c :: cs => p = c && leadsWith ps cs

/-- Whether the first character list occurs contiguously in the second. -/
def occursIn (pat : List Char) : List Char → Bool
  | [] => pat.isEmpty
  | c :: cs => leadsWith pat (c :: cs) || occursIn pat cs

/-- Substring test, modelling `String.prototype.includes`. -/
def includesStr (s pat : String) : Bool := occursIn pat.toList s.toList

/-- The errors the embedded client code can raise or observe. -/
inductive JsError where
  /-- `new Error(message)` raised by the client code itself. -/
  | error : String → JsError
  /-- The TypeError raised by the fetch API when a body stream is read a
  second time.  Engine wording varies; the fixed text below stands for it. -/
  | bodyAlreadyRead : JsError
  /-- The SyntaxError raised by `json()` on a body that is not valid JSON. -/
  | parseFailed : JsError
  /-- The TypeError with which `fetch` itself rejects on transport failure. -/
  | transportError : JsError

/-- The `message` property of an error, as read by the catch handlers. -/
def JsError.message : JsError → String
  | JsError.error m => m
  | JsError.bodyAlreadyRead => "TypeError: body stream already read"
  | JsError.parseFailed => "SyntaxError: unexpected token in JSON"
  | JsError.transportError => "TypeError: failed to fetch"

/-- A fetch response: HTTP status, the content-type header (absent when the
header is missing), the raw body text, and the result of parsing that body
as JSON (`none` when the body is not valid JSON). -/
structure Response where
  status : Nat
  contentType : Option String
  body : String
  parse : Option Json

/-- `res.ok`: the status lies in the inclusive range 200–299. -/
def Response.ok (r : Response) : Bool := 200 ≤ r.status && r.status ≤ 299

/-- `res.json()` with the one-shot body stream made explicit: consuming an
already-used body raises the body-reuse TypeError; otherwise the body is
consumed and either parses or raises a SyntaxError. -/
def Response.jsonOp (r : Response) (used : Bool) : Except JsError Json × Bool :=
  if used then (Except.error JsError.bodyAlreadyRead, true)
  else
    match r.parse with
    | some v => (Except.ok v, true)
    | none => (Except.error JsError.parseFailed, true)

/-- `res.text()` with the one-shot body stream made explicit. -/
def Response.textOp (r : Response) (used : Bool) : Except JsError String × Bool :=
  if used then (Except.error JsError.bodyAlreadyRead, true)
  else (Except.ok r.body, true)

/-- The content-type test `contentType && contentType.includes("application/json")`
used by the upload handler (an absent or empty header is not JSON). -/
def ctIsJson : Option String → Bool
  | none => false
  | some ct => includesStr ct "application/json"

/-- The message `HTTP <status>` used as fallback error text. -/
def httpMsg (status : Nat) : String := "HTTP " ++ toString status

/-- Whether an `Except` computation completed without raising. -/
def exceptIsOk {ε α : Type} : Except ε α → Bool
  | Except.ok _ => true
  | Except.error _ => false

/-- The outcome of a `fetch` call: either the transport fails (the promise
rejects) or a `Response` arrives, whatever its status. -/
abbrev FetchOutcome := Except Unit Response

/-!  ## frontend/auth.js : fetchJSON and authMe  -/

/-- `fetchJSON(url, opts)` from frontend/auth.js: await the fetch (a
transport rejection propagates), parse the body swallowing parse failures,
then on a non-2xx status raise an Error whose message is the parsed body's
`error` or `message` field when one is truthy, else `HTTP <status>`;
on a 2xx status return the parsed body (null when parsing failed). -/
def fetchJSON (outcome : FetchOutcome) : Except JsError (Option Json) :=
  match outcome with
  | Except.error _ => Except.error JsError.transportError
  | Except.ok res =>
    let data : Option Json := res.parse
    if !res.ok then
      let fielded : Option Json :=
        if truthy (jget data "error") then jget data "error"
        else jget data "message"
      let msg : String :=
        if truthy data then
          if truthy fielded then jsToString fielded else httpMsg res.status
        else httpMsg res.status
      Except.error (JsError.error msg)
    else Except.ok data

/-- `authMe()` from frontend/auth.js: await the session probe — the fetch
call is not wrapped in try/catch, so a transport rejection propagates to the
caller — then parse the body swallowing parse failures, and return
`data.user` when `data` and `data.ok` are truthy, null otherwise.  Note that
the HTTP status of the probe response is never examined. -/
def authMe (outcome : FetchOutcome) : Except JsError (Option Json) :=
  match outcome with
  | Except.error _ => Except.error JsError.transportError
  | Except.ok r =>
    let data : Option Json := r.parse
    Except.ok (if truthy data && truthy (jget data "ok") then jget data "user" else none)

/-!  ## frontend/auth.js : signup validation  -/

/-- The character class `[A-Z]`. -/
def isAsciiUpper (c : Char) : Bool := 'A' ≤ c && c ≤ 'Z'

/-- The character class `[a-z]`. -/
def isAsciiLower (c : Char) : Bool := 'a' ≤ c && c ≤ 'z'

/-- The character class `[0-9]` (the regex digit class). -/
def isAsciiDigit (c : Char) : Bool := '0' ≤ c && c ≤ '9'

/-- `strength(pw)` from frontend/auth.js: one point per satisfied criterion
(length at least 6, an uppercase letter, a lowercase letter, a digit, a
character outside A-Za-z0-9), accumulated sequentially and capped at 5. -/
def strength (pw : String) : Nat :=
  let s : Nat := 0
  let s := if pw.length ≥ 6 then s + 1 else s
  let s := if pw.any isAsciiUpper then s + 1 else s
  let s := if pw.any isAsciiLower then s + 1 else s
  let s := if pw.any isAsciiDigit then s + 1 else s
  let s := if pw.any (fun c => !(isAsciiUpper c || isAsciiLower c || isAsciiDigit c)) then s + 1 else s
  min s 5

/-- The strength score as the specification words it: one point for each of
the five criteria, as a sum of indicators, capped at 5.  Kept separate from
`strength` (the code's sequential accumulation) so the two can be compared. -/
def strengthClaim (pw : String) : Nat :=
  min ((if pw.length ≥ 6 then 1 else 0)
    + (if pw.any isAsciiUpper then 1 else 0)
    + (if pw.any isAsciiLower then 1 else 0)
    + (if pw.any isAsciiDigit then 1 else 0)
    + (if pw.any (fun c => !(isAsciiUpper c || isAsciiLower c || isAsciiDigit c)) then 1 else 0)) 5

/-- Whitespace as matched by the regex space class; modelled by the ASCII
whitespace predicate (the exotic Unicode members of the class are not
exercised by any claim). -/
def isJsSpace (c : Char) : Bool := c.isWhitespace

/-- A character admissible in the email atoms: anything that is neither
whitespace nor the at sign. -/
def atomChar (c : Char) : Bool := !(isJsSpace c || c = '@')

/-- Whether some character strictly inside the list (neither first nor last
position of the enclosing string once the head has been stripped) is a dot:
helper for `emailMatches`. -/
def hasMidDot : List Char → Bool
  | c :: d :: rest => (c = '.') || hasMidDot (d :: rest)
  | _ => false

/-- Whether the character list contains a dot at an interior position (not
first, not last). -/
def hasInteriorDot (l : List Char) : Bool :=
  match l with
  | [] => false
  | _ :: rest => hasMidDot rest

/-- Split a character list at every occurrence of the separator. -/
def splitOnChar (sep : Char) : List Char → List (List Char)
  | [] => [[]]
  | d :: rest =>
    match splitOnChar sep rest with
    | h :: t => if d = sep then [] :: h :: t else (d :: h) :: t
    | [] => if d = sep then [[], []] else [[d]]

/-- The anchored email pattern of frontend/auth.js: one or more characters
that are neither whitespace nor at sign, an at sign, then one or more such
characters containing a dot at an interior position.  Characterized
directly: exactly one at sign splitting the string into a non-empty local
part and a non-empty domain part, both free of whitespace, with the domain
part containing an interior dot. -/
def emailMatches (s : String) : Bool :=
  match splitOnChar '@' s.toList with
  | [localPart, domainPart] =>
    decide (localPart.length ≥ 1) && localPart.all atomChar
      && decide (domainPart.length ≥ 1) && domainPart.all atomChar
      && hasInteriorDot domainPart
  | _ => false

/-- `validateSignup()` from frontend/auth.js, reduced to its decision: the
disabled flag assigned to the signup submit control, computed from the
trimmed email, the trimmed username and the raw password.  (The password
meter width update performed alongside has no bearing on the decision.) -/
def validateSignup (email username pw : String) : Bool :=
  let emailT := email.trim
  let user := username.trim
  let emailOk := emailMatches emailT
  let userOk := user.length ≥ 3
  let pwScore := strength pw
  !(emailOk && userOk && decide (pwScore ≥ 3))

/-!  ## frontend/auth.js : session gate state  -/

/-- A user record from the session or auth endpoints. -/
structure AuthUser where
  username : String
  email : String

/-- The DOM state owned by the session gate: the logged-in flag, the session
chip, the logout control, the located submission control (when any selector
strategy finds one) and its disabled flag, and the overlay visibility. -/
structure AuthUI where
  loggedIn : Bool
  chipText : String
  chipShow : Bool
  logoutBtnShown : Bool
  processBtn : Bool
  processBtnDisabled : Bool
  overlayShown : Bool
  bodyLocked : Bool

/-- The module-level constant of frontend/auth.js. -/
def REQUIRE_LOGIN : Bool := true

/-- `enableControlsIfPresent()`: when a submission control is located, set
its disabled flag to the negation of the logged-in flag; otherwise no-op. -/
def enableControlsIfPresent (ui : AuthUI) : AuthUI :=
  if ui.processBtn then { ui with processBtnDisabled := !ui.loggedIn } else ui

/-- `showOverlay()` (alert clearing and focus handling are outside the
modelled state). -/
def showOverlay (ui : AuthUI) : AuthUI :=
  { ui with overlayShown := true, bodyLocked := true }

/-- `hideOverlay()`. -/
def hideOverlay (ui : AuthUI) : AuthUI :=
  { ui with overlayShown := false, bodyLocked := false }

/-- `setLoggedIn(user)` from frontend/auth.js. -/
def setLoggedIn (user : Option AuthUser) (ui0 : AuthUI) : AuthUI :=
  let ui := { ui0 with loggedIn := user.isSome }
  match user with
  | some u =>
    hideOverlay (enableControlsIfPresent
      { ui with chipText := "Signed in: " ++ u.username, chipShow := true, logoutBtnShown := true })
  | none =>
    enableControlsIfPresent
      { ui with chipText := "", chipShow := false, logoutBtnShown := false }

/-- The logout click handler: issue the logout request through `fetchJSON`
discarding any outcome (success value and raised error alike), then
`setLoggedIn(null)`, then re-show the overlay when login is required. -/
def logoutClick (probe : FetchOutcome) (ui : AuthUI) : AuthUI :=
  let _ := fetchJSON probe
  let ui := setLoggedIn none ui
  if REQUIRE_LOGIN then showOverlay ui else ui

/-!  ## frontend/app.js : document inputs and form data  -/

/-- The DOM inputs read by the upload handler.  `filesInput` is the located
file input element: `none` when neither candidate id resolves, `some none`
when the element lacks a files list, `some (some fs)` for its file list
(files are identified by name).  The scalar inputs are `none` when the
element is absent and `some v` for its current string value. -/
structure UploadDoc where
  filesInput : Option (Option (List String))
  langVal : Option String
  topKVal : Option String
  ocrEngineVal : Option String
  messyChecked : Option Bool
  mindmapEl : Bool
  flowchartEl : Bool
  textEl : Bool
  conceptsEl : Bool

/-- The compound precondition test of the upload handler: yields the file
list exactly when the input exists, carries a files list, and that list is
non-empty; mirrors the disjunction of the three checks in the code. -/
def filesOf (doc : UploadDoc) : Option (List String) :=
  match doc.filesInput with
  | none => none
  | some none => none
  | some (some fs) => if fs.isEmpty then none else some fs

/-- The pattern `input?.value || default`: the default is used when the
element is absent or its value is the empty string. -/
def jsDefault (v : Option String) (d : String) : String :=
  match v with
  | none => d
  | some s => if s = "" then d else s

/-- The multipart form data assembled by the upload handler, as the ordered
list of appended (field, value) pairs: one `files` entry per file, then the
three scalar fields with their defaults, then `messy` exactly when the
checkbox exists and is checked. -/
def buildFormData (doc : UploadDoc) (files : List String) : List (String × String) :=
  files.map (fun f => ("files", f))
    ++ [("lang", jsDefault doc.langVal "en"),
        ("top_k", jsDefault doc.topKVal "15"),
        ("ocr_engine", jsDefault doc.ocrEngineVal "gcv")]
    ++ (if doc.messyChecked = some true then [("messy", "true")] else [])

/-- First-match lookup of a field value in assembled form data. -/
def lookupField : List (String × String) → String → Option String
  | [], _ => none
  | (k, v) :: rest, key => if k = key then some v else lookupField rest key

/-- A request issued over the network: URL and multipart payload. -/
abbrev ReqLog := String × List (String × String)

/-!  ## frontend/app.js : the visualization collaborator  -/

/-- The hierarchical layout block installed for flowcharts. -/
structure HierLayout where
  direction : String
  levelSeparation : Nat
  nodeSpacing : Nat

/-- The physics block of the vis-network options. -/
structure PhysicsOpts where
  enabled : Bool
  solver : String
  stabilizationIters : Nat

/-- The node styling fields of the options that are plain data (colors and
fonts are constants with no behavioural content and are not modelled). -/
structure NodeOpts where
  shape : String
  size : Nat

/-- The edge styling fields of the options retained in the model. -/
structure EdgeOpts where
  smoothEnabled : Bool
  arrowsToEnabled : Bool

/-- The vis-network options object: `layout` is `none` for the default
force-directed behaviour and carries the hierarchical block otherwise. -/
structure VisOpts where
  physics : PhysicsOpts
  nodes : NodeOpts
  edges : EdgeOpts
  interactionHover : Bool
  layout : Option HierLayout

/-- `visOptions()` from frontend/app.js. -/
def visOptions : VisOpts :=
  { physics := { enabled := true, solver := "forceAtlas2Based", stabilizationIters := 200 }
  , nodes := { shape := "dot", size := 14 }
  , edges := { smoothEnabled := false, arrowsToEnabled := true }
  , interactionHover := true
  , layout := none }

/-- The graph argument handed to `renderNetwork`: the two fields read off
the response payload (either may be absent). -/
structure Graph where
  nodes : Option Json
  edges : Option Json

/-- A live vis-network instance: its allocation identifier, the container
it is bound to, the node and edge payloads handed to the data sets (after
the or-else-empty-array defaulting), and its options. -/
structure Network where
  id : Nat
  container : String
  nodesData : Json
  edgesData : Json
  opts : VisOpts

/-- The state of the visualization collaborator: the next fresh instance
identifier, the identifiers on which destroy has been called, and every
instance ever constructed (most recent first). -/
structure VisState where
  nextId : Nat
  destroyed : List Nat
  instances : List Network

/-- `renderNetwork(container, previous, graph, hierarchical)` from
frontend/app.js: return null immediately when the container is absent;
otherwise build the data sets, take the base options, switch to the
left-to-right hierarchical layout with physics disabled when requested,
destroy the previous handle when one exists, and construct and return the
new instance. -/
def renderNetwork (container : Option String) (previous : Option Nat)
    (graph : Graph) (hierarchical : Bool) (st : VisState) : Option Nat × VisState :=
  match container with
  | none => (none, st)
  | some c =>
    let nodesData := jsOrElse graph.nodes (Json.arr [])
    let edgesData := jsOrElse graph.edges (Json.arr [])
    let opts := visOptions
    let opts :=
      if hierarchical then
        { opts with
          layout := some { direction := "LR", levelSeparation := 160, nodeSpacing := 80 }
          , physics := { opts.physics with enabled := false } }
      else opts
    let st1 : VisState :=
      match previous with
      | some h => { st with destroyed := h :: st.destroyed }
      | none => st
    let netw : Network :=
      { id := st1.nextId, container := c, nodesData := nodesData, edgesData := edgesData, opts := opts }
    (some st1.nextId,
      { st1 with nextId := st1.nextId + 1, instances := netw :: st1.instances })

/-- The instances currently alive in a given container: constructed and not
destroyed. -/
def VisState.liveAt (st : VisState) (c : String) : List Network :=
  st.instances.filter (fun n => decide (n.container = c ∧ n.id ∉ st.destroyed))

/-!  ## frontend/app.js : the upload handler  -/

/-- The page state the upload handler can touch: status region text, the
busy flag of the submission control, the text output value, the rendered
concept list items, the two stored per-container handles, and the
visualization state. -/
structure AppState where
  status : String
  busy : Bool
  textVal : String
  concepts : List String
  mindmapNetwork : Option Nat
  flowchartNetwork : Option Nat
  vis : VisState

/-- `data.text || data.llm?.clean_text || ""` — the text output value. -/
def textValue (data : Json) : String :=
  let t := jget (some data) "text"
  if truthy t then jsToString t
  else
    let c := jget (jget (some data) "llm") "clean_text"
    if truthy c then jsToString c else ""

/-- `Number(x).toFixed(2)` restricted to the modelled integral numbers. -/
def fixed2 : Json → String
  | Json.num n => toString n ++ ".00"
  | _ => "NaN"

/-- The text of one concept list item: the item itself when it is a string,
else its `phrase` (empty when falsy) followed by the two-decimal score in
parentheses unless the score is null or absent (the loose inequality test
against null). -/
def liText : Json → String
  | Json.str s => s
  | item =>
    let phrase := jget (some item) "phrase"
    let p := if truthy phrase then jsToString phrase else ""
    match jget (some item) "score" with
    | none => p
    | some Json.null => p
    | some v => p ++ " (" ++ fixed2 v ++ ")"

/-- The concept rendering step of the upload handler: when `keyphrases` is
an array, render it (the render itself returns early when the concept list
element is absent); else when `llm.concepts` is an array, wrap each entry
as a phrase with score 1 and render that; else leave the list untouched. -/
def conceptsUpdate (doc : UploadDoc) (data : Json) (app : AppState) : AppState :=
  match jget (some data) "keyphrases" with
  | some (Json.arr xs) =>
    if doc.conceptsEl then { app with concepts := xs.map liText } else app
  | _ =>
    match jget (jget (some data) "llm") "concepts" with
    | some (Json.arr xs) =>
      if doc.conceptsEl then
        { app with concepts := xs.map (fun c => liText (Json.obj [("phrase", c), ("score", Json.num 1)])) }
      else app
    | _ => app

/-- The final status line of a successful upload, built from `data.meta`
with its falsy-field defaults. -/
def doneMsg (meta : Option Json) : String :=
  let m := jsOrElse meta (Json.obj [])
  "Done (" ++ jsToString (some (jsOrElse (jget (some m) "images_processed") (Json.num 0)))
    ++ " page(s), engine: "
    ++ jsToString (some (jsOrElse (jget (some m) "ocr_engine") (Json.str "n/a"))) ++ ")"

/-- The text output step: `if (textEl) textEl.value = ...`. -/
def textStep (doc : UploadDoc) (data : Json) (app : AppState) : AppState :=
  if doc.textEl then { app with textVal := textValue data } else app

/-- The nodes/edges pair read off a named graph field of the payload. -/
def graphOf (data : Json) (field : String) : Graph :=
  { nodes := jget (jget (some data) field) "nodes"
  , edges := jget (jget (some data) field) "edges" }

/-- The mindmap rendering step: when the payload carries a truthy `mindmap`
and the container exists, render it with the force-directed default and
store the returned handle. -/
def mindmapStep (doc : UploadDoc) (data : Json) (app : AppState) : AppState :=
  if truthy (jget (some data) "mindmap") && doc.mindmapEl then
    let pr := renderNetwork (some "mindmap") app.mindmapNetwork
      (graphOf data "mindmap") false app.vis
    { app with mindmapNetwork := pr.1, vis := pr.2 }
  else app

/-- The flowchart rendering step: when the payload carries a truthy
`flowchart` and the container exists, render it with the hierarchical flag
set and store the returned handle. -/
def flowchartStep (doc : UploadDoc) (data : Json) (app : AppState) : AppState :=
  if truthy (jget (some data) "flowchart") && doc.flowchartEl then
    let pr := renderNetwork (some "flowchart") app.flowchartNetwork
      (graphOf data "flowchart") true app.vis
    { app with flowchartNetwork := pr.1, vis := pr.2 }
  else app

/-- The success tail of the upload handler (after the error-field check):
populate the text output when its element exists, render concepts, render
the mindmap (force-directed), render the flowchart (hierarchical), then
publish the summary status — in the order of the source. -/
def renderResults (doc : UploadDoc) (data : Json) (app0 : AppState) : AppState :=
  { flowchartStep doc data
      (mindmapStep doc data
        (conceptsUpdate doc data
          (textStep doc data app0)))
    with status := doneMsg (jget (some data) "meta") }

/-- The try block of the upload handler: precondition check and validation
return, form assembly, dispatch, response classification, and result
handling.  Returns the raised error (if any), the page state reached when
the block finishes or the raise happens, and the requests issued.  The
non-2xx JSON branch mirrors the source faithfully: the deliberate throw of
the decoded message happens inside the same try whose catch then re-reads
the already-consumed body. -/
def submitFormCore (doc : UploadDoc) (outcome : FetchOutcome) (app : AppState) :
    Except JsError Unit × AppState × List ReqLog :=
  match filesOf doc with
  | none =>
    (Except.ok (),
      { app with status := "Please select at least one file.", busy := false }, [])
  | some files =>
    let fd := buildFormData doc files
    let reqs : List ReqLog := [("/api/process", fd)]
    match outcome with
    | Except.error _ => (Except.error JsError.transportError, app, reqs)
    | Except.ok res =>
      if !res.ok then
        if ctIsJson res.contentType then
          let j := res.jsonOp false
          let _thrownInTry : JsError :=
            match j.1 with
            | Except.ok v =>
              JsError.error
                (if truthy (jget (some v) "error") then jsToString (jget (some v) "error")
                 else httpMsg res.status)
            | Except.error e => e
          match res.textOp j.2 with
          | (Except.ok t, _) =>
            (Except.error (JsError.error (httpMsg res.status ++ ": " ++ t.take 200)), app, reqs)
          | (Except.error e2, _) => (Except.error e2, app, reqs)
        else
          match res.textOp false with
          | (Except.ok t, _) =>
            (Except.error (JsError.error (httpMsg res.status ++ ": " ++ t.take 200)), app, reqs)
          | (Except.error e, _) => (Except.error e, app, reqs)
      else
        if !ctIsJson res.contentType then
          match res.textOp false with
          | (Except.ok t, _) =>
            (Except.error (JsError.error ("Expected JSON response, got: " ++ t.take 100)), app, reqs)
          | (Except.error e, _) => (Except.error e, app, reqs)
        else
          match (res.jsonOp false).1 with
          | Except.error e => (Except.error e, app, reqs)
          | Except.ok data =>
            if truthy (jget (some data) "error") then
              (Except.error (JsError.error (jsToString (jget (some data) "error"))), app, reqs)
            else
              (Except.ok (), renderResults doc data app, reqs)

/-- `submitForm(e)` from frontend/app.js: clear the status, set the busy
flag, run the try block, surface any raised error's message (with the
falsy-message fallback) in the status region, and unconditionally clear the
busy flag. -/
def submitForm (doc : UploadDoc) (outcome : FetchOutcome) (app0 : AppState) :
    AppState × List ReqLog :=
  let app := { app0 with status := "", busy := true }
  let r := submitFormCore doc outcome app
  let app :=
    match r.1 with
    | Except.ok _ => r.2.1
    | Except.error e =>
      { r.2.1 with status := if e.message = "" then "Failed to process" else e.message }
  ({ app with busy := false }, r.2.2)

/-- The page state at load: empty status, idle control, no stored handles,
no instances. -/
def initialApp : AppState :=
  { status := "", busy := false, textVal := "", concepts := []
  , mindmapNetwork := none, flowchartNetwork := none
  , vis := { nextId := 0, destroyed := [], instances := [] } }

/-- A sequence of form submissions folded over the page state. -/
def runUploads (inputs : List (UploadDoc × FetchOutcome)) (app : AppState) : AppState :=
  inputs.foldl (fun a p => (submitForm p.1 p.2 a).1) app

/-!  ## Ownership invariant for rendered instances  -/

/-- Every constructed instance has an identifier below the allocator. -/
def freshIds (st : VisState) : Prop := ∀ n ∈ st.instances, n.id < st.nextId

/-- Constructed instances carry pairwise distinct identifiers. -/
def distinctIds (st : VisState) : Prop :=
  st.instances.Pairwise (fun a b => a.id ≠ b.id)

/-- The stored handle owns its container: every instance constructed in the
container is destroyed or is the stored one; a stored handle is a valid
allocation; and an instance bearing the stored identifier lives in this
container. -/
def ownsC (st : VisState) (stored : Option Nat) (c : String) : Prop :=
  (∀ n ∈ st.instances, n.container = c → n.id ∈ st.destroyed ∨ stored = some n.id)
  ∧ (∀ h, stored = some h → h < st.nextId)
  ∧ (∀ h, stored = some h → ∀ n ∈ st.instances, n.id = h → n.container = c)

/-- The page-level invariant: well-formed allocation, each stored handle
owns its container, and every instance was constructed in one of the two
graph containers. -/
def AppInv (app : AppState) : Prop :=
  freshIds app.vis ∧ distinctIds app.vis
  ∧ ownsC app.vis app.mindmapNetwork "mindmap"
  ∧ ownsC app.vis app.flowchartNetwork "flowchart"
  ∧ (∀ n ∈ app.vis.instances, n.container = "mindmap" ∨ n.container = "flowchart")

/-!  ## Concrete inputs used by witnesses and counterexamples  -/

/-- A document state with one selected file and all containers present. -/
def docOneFile : UploadDoc :=
  { filesInput := some (some ["notes.png"]), langVal := some "en", topKVal := some "15"
  , ocrEngineVal := some "gcv", messyChecked := some false
  , mindmapEl := true, flowchartEl := true, textEl := true, conceptsEl := true }

/-- The same document with an empty selected file list. -/
def docNoFiles : UploadDoc := { docOneFile with filesInput := some (some []) }

/-- A 500 response with JSON content type whose body parses to an object
carrying error "boom". -/
def resp500boom : Response :=
  { status := 500, contentType := some "application/json"
  , body := "\x7b\"error\":\"boom\"\x7d"
  , parse := some (Json.obj [("error", Json.str "boom")]) }

/-- A 500 response whose body nevertheless parses to a truthy ok with a
user record. -/
def respOk500 : Response :=
  { status := 500, contentType := some "application/json"
  , body := "\x7b\"ok\":true,\"user\":\x7b\"username\":\"alice\",\"email\":\"alice@example.com\"\x7d\x7d"
  , parse := some (Json.obj
      [("ok", Json.bool true),
       ("user", Json.obj [("username", Json.str "alice"), ("email", Json.str "alice@example.com")])]) }

/-- A 200 response whose body is not valid JSON. -/
def respParseFail200 : Response :=
  { status := 200, contentType := some "application/json", body := "not json", parse := none }

/-- An arbitrary visualization state with room below the allocator. -/
def stArb : VisState := { nextId := 5, destroyed := [], instances := [] }

/-- A successful processing payload carrying both graph descriptors. -/
def dataGraphs : Json :=
  Json.obj
    [("text", Json.str "hello"),
     ("mindmap", Json.obj [("nodes", Json.arr []), ("edges", Json.arr [])]),
     ("flowchart", Json.obj [("nodes", Json.arr []), ("edges", Json.arr [])]),
     ("meta", Json.obj [("images_processed", Json.num 1), ("ocr_engine", Json.str "gcv")])]

/-- A 200 JSON response carrying `dataGraphs`. -/
def respGraphs : Response :=
  { status := 200, contentType := some "application/json"
  , body := "(omitted; parse carries the content)", parse := some dataGraphs }

/-- The mindmap instance constructed by the first successful upload of
`respGraphs` from the load state: allocation 0, bound to the mindmap
container, displaying the (empty) node and edge arrays with the default
force-directed options. -/
def mmNetFirst : Network :=
  { id := 0, container := "mindmap", nodesData := Json.arr []
  , edgesData := Json.arr [], opts := visOptions }

/-!  ## Helper lemmas  -/

/-- Property access only succeeds on a truthy (object) value. -/
theorem truthy_of_jget (v : Option Json) (k : String) (w : Json)
    (h : jget v k = some w) : truthy v = true := by
  cases v with
  | none => simp [jget] at h
  | some x => cases x <;> simp [jget, truthy] at h ⊢

/-- The sequential point accumulation of `strength` equals the indicator
sum of `strengthClaim`. -/
theorem strength_eq_claim (pw : String) : strength pw = strengthClaim pw := by
  simp only [strength, strengthClaim]
  split_ifs <;> rfl

/-!  ## Claim C7  -/

/-- Claim C7: after validation runs, the signup submit control is enabled
(disabled flag false) iff the trimmed email matches the basic address
pattern, the trimmed username has length at least 3, and the password
strength — one point each for length at least 6, an uppercase letter, a
lowercase letter, a digit and a symbol, capped at 5 — is at least 3. -/
theorem signup_enabled_iff (email username pw : String) :
    validateSignup email username pw = false ↔
      (emailMatches email.trim = true ∧ 3 ≤ (username.trim).length ∧ 3 ≤ strengthClaim pw) := by
  simp only [validateSignup, Bool.not_eq_false', Bool.and_eq_true, decide_eq_true_eq,
    strength_eq_claim, ge_iff_le, and_assoc]

/-!  ## Claim C10  -/

/-- Claim C10: fetchJSON raises iff the status is not ok; a 2xx response
with an unparsable body yields null without raising; a non-2xx response
raises with the parsed body's error field when one is a non-empty string,
else with its message field when that is a non-empty string, else with the
message built from the raw status. -/
theorem fetchJSON_raise_policy (r : Response) :
    exceptIsOk (fetchJSON (Except.ok r)) = r.ok ∧
    (r.ok = true → r.parse = none → fetchJSON (Except.ok r) = Except.ok none) ∧
    (r.ok = false → ∀ s, jget r.parse "error" = some (Json.str s) → s ≠ "" →
      fetchJSON (Except.ok r) = Except.error (JsError.error s)) ∧
    (r.ok = false → jget r.parse "error" = none →
      ∀ s, jget r.parse "message" = some (Json.str s) → s ≠ "" →
        fetchJSON (Except.ok r) = Except.error (JsError.error s)) ∧
    (r.ok = false → jget r.parse "error" = none → jget r.parse "message" = none →
      fetchJSON (Except.ok r) = Except.error (JsError.error (httpMsg r.status))) := by
  refine ⟨?_, ?_, ?_, ?_, ?_⟩
  · cases hok : r.ok <;> simp [fetchJSON, hok, exceptIsOk]
  · intro h1 h2
    simp [fetchJSON, h1, h2]
  · intro hok s hs hne
    have hd := truthy_of_jget r.parse "error" (Json.str s) hs
    have hts : truthy (some (Json.str s)) = true := by simp [truthy, hne]
    have ht : truthy (jget r.parse "error") = true := by rw [hs]; exact hts
    simp [fetchJSON, hok, hd, ht, hs, hts, jsToString, jsToStringV]
  · intro hok he s hs hne
    have hd := truthy_of_jget r.parse "message" (Json.str s) hs
    have hts : truthy (some (Json.str s)) = true := by simp [truthy, hne]
    have hte : truthy (jget r.parse "error") = false := by rw [he]; rfl
    have ht : truthy (jget r.parse "message") = true := by rw [hs]; exact hts
    simp [fetchJSON, hok, hd, hte, ht, hs, hts, jsToString, jsToStringV]
  · intro hok he hm
    simp [fetchJSON, hok, he, hm, truthy]

/-- Witness for C10 at two concrete responses: a 500 whose body carries
error "boom", and a 200 whose body fails to parse. -/
theorem fetchJSON_raise_policy_witness :
    resp500boom.ok = false ∧
    jget resp500boom.parse "error" = some (Json.str "boom") ∧ "boom" ≠ "" ∧
    fetchJSON (Except.ok resp500boom) = Except.error (JsError.error "boom") ∧
    respParseFail200.ok = true ∧ respParseFail200.parse = none ∧
    fetchJSON (Except.ok respParseFail200) = Except.ok none :=
  ⟨rfl, rfl, by decide,
    (fetchJSON_raise_policy resp500boom).2.2.1 rfl "boom" rfl (by decide),
    rfl, rfl,
    (fetchJSON_raise_policy respParseFail200).2.1 rfl rfl⟩

/-!  ## Claim C4  -/

/-- Claim C4 counterexample: the claim fails in two ways at concrete
inputs.  A transport failure of the probe propagates out of authMe as an
exception, and a non-2xx (500) response whose body parses with a truthy ok
makes authMe return the user rather than null — the status is never
examined. -/
theorem authMe_claim_fails :
    authMe (Except.error ()) = Except.error JsError.transportError ∧
    authMe (Except.ok respOk500)
      = Except.ok (some (Json.obj
          [("username", Json.str "alice"), ("email", Json.str "alice@example.com")])) :=
  ⟨rfl, rfl⟩

/-- Claim C4 (amended): for every received response — any HTTP status,
body parsing or failing — authMe returns without raising: the body's user
field when the body parses with a truthy ok field (the HTTP status is not
consulted), and null otherwise (parse failures included); a transport
failure of the probe itself is not caught and propagates to the caller. -/
theorem authMe_total_on_responses :
    (∀ r : Response,
      authMe (Except.ok r)
        = Except.ok (if truthy (jget r.parse "ok") then jget r.parse "user" else none)) ∧
    (∀ u : Unit, authMe (Except.error u) = Except.error JsError.transportError) := by
  refine ⟨?_, fun u => rfl⟩
  intro r
  cases hok : truthy (jget r.parse "ok") with
  | false => simp [authMe, hok]
  | true =>
    have hd : truthy r.parse = true := by
      cases hp : r.parse with
      | none => rw [hp] at hok; simp [jget, truthy] at hok
      | some v =>
        cases v with
        | obj fs => simp [truthy]
        | null => rw [hp] at hok; simp [jget, truthy] at hok
        | bool b => rw [hp] at hok; simp [jget, truthy] at hok
        | num n => rw [hp] at hok; simp [jget, truthy] at hok
        | str s => rw [hp] at hok; simp [jget, truthy] at hok
        | arr xs => rw [hp] at hok; simp [jget, truthy] at hok
    simp [authMe, hok, hd]

/-!  ## Claim C2  -/

/-- Claim C2 counterexample: with an absent container and a stored previous
handle, renderNetwork returns null, not the unchanged previous handle. -/
theorem renderNetwork_absent_returns_null :
    (renderNetwork none (some 3) { nodes := none, edges := none } false stArb).1 = none ∧
    (none : Option Nat) ≠ some 3 :=
  ⟨rfl, by decide⟩

/-- Claim C2 (amended): with an absent container, renderNetwork is a no-op
that returns null — no instance is created, nothing is destroyed and the
visualization state is untouched — so the returned value coincides with the
previous handle only when no previous handle was stored. -/
theorem renderNetwork_absent_noop (previous : Option Nat) (g : Graph)
    (hier : Bool) (st : VisState) :
    renderNetwork none previous g hier st = (none, st) := rfl

/-!  ## Claim C5  -/

/-- Claim C5: with an empty or absent selected file list, the upload
handler issues no request, surfaces the validation message in the status
region, leaves the control idle, and leaves the text output, concept list,
stored handles and visualization state unchanged. -/
theorem submit_no_files (doc : UploadDoc) (outcome : FetchOutcome) (app : AppState)
    (h : filesOf doc = none) :
    submitForm doc outcome app
      = ({ app with status := "Please select at least one file.", busy := false }, []) := by
  unfold submitForm submitFormCore
  rw [h]

/-- Witness for C5 at the concrete empty-selection document. -/
theorem submit_no_files_witness :
    filesOf docNoFiles = none ∧
    submitForm docNoFiles (Except.error ()) initialApp
      = ({ initialApp with status := "Please select at least one file.", busy := false }, []) :=
  ⟨rfl, submit_no_files docNoFiles (Except.error ()) initialApp rfl⟩

/-!  ## Claim C6  -/

/-- Claim C6: whatever the outcome of the logout request (its success value
or failure is discarded), the logout click handler leaves the gate
unauthenticated: the session chip is emptied and hidden, a located
submission control is disabled (an absent one is left alone), and the
overlay is shown (login is required in this build). -/
theorem logout_gate (probe : FetchOutcome) (ui : AuthUI) :
    (logoutClick probe ui).loggedIn = false ∧
    (logoutClick probe ui).chipText = "" ∧
    (logoutClick probe ui).chipShow = false ∧
    (logoutClick probe ui).processBtn = ui.processBtn ∧
    (logoutClick probe ui).processBtnDisabled
      = (if ui.processBtn then true else ui.processBtnDisabled) ∧
    (logoutClick probe ui).overlayShown = true := by
  cases hb : ui.processBtn <;>
    simp [logoutClick, setLoggedIn, enableControlsIfPresent, showOverlay, REQUIRE_LOGIN, hb]

/-!  ## Claim C1  -/

/-- Claim C1 (failing input evaluation): for the 500 response with JSON
content type whose body parses to an object with error "boom", the upload
handler surfaces the body-reuse TypeError message and not "boom".  The
deliberate throw of the decoded error happens inside the same try whose
catch then calls the text reader on the body that the JSON reader already
consumed, so the re-read TypeError propagates to the outer handler instead
of either intended message. -/
theorem submit_error_surfaces_body_reuse :
    (submitForm docOneFile (Except.ok resp500boom) initialApp).1.status
      = JsError.message JsError.bodyAlreadyRead ∧
    (submitForm docOneFile (Except.ok resp500boom) initialApp).1.status ≠ "boom" :=
  ⟨rfl, by decide⟩

/-!  ## Claim C9  -/

/-- Keyed lookup ignores a prefix whose keys all differ from the key. -/
theorem lookupField_skip (l1 l2 : List (String × String)) (k : String)
    (h : ∀ p ∈ l1, p.1 ≠ k) : lookupField (l1 ++ l2) k = lookupField l2 k := by
  induction l1 with
  | nil => rfl
  | cons p rest ih =>
    obtain ⟨k1, v1⟩ := p
    have hp : k1 ≠ k := h (k1, v1) (List.mem_cons_self _ _)
    rw [List.cons_append]
    simp only [lookupField, if_neg hp]
    exact ih (fun q hq => h q (List.mem_cons_of_mem _ hq))

/-- Whatever the fetch outcome and response classification, a submission
with a non-empty file selection issues exactly the one assembled request. -/
theorem submitForm_reqs (doc : UploadDoc) (outcome : FetchOutcome) (app : AppState)
    (files : List String) (h : filesOf doc = some files) :
    (submitForm doc outcome app).2 = [("/api/process", buildFormData doc files)] := by
  unfold submitForm submitFormCore
  rw [h]
  rcases outcome with u | res
  · rfl
  · simp only []
    repeat' split
    all_goals rfl

/-- Claim C9: with at least one file selected, the assembled multipart
request carries `lang` defaulting to "en" when the input is absent or
empty, `top_k` defaulting to "15", `ocr_engine` defaulting to "gcv", and a
`messy` field with value "true" exactly when the checkbox is set — when it
is not set, no `messy` field is appended at all; every selected file is
carried under the `files` field. -/
theorem submit_formdata_fields (doc : UploadDoc) (outcome : FetchOutcome) (app : AppState)
    (files : List String) (h : filesOf doc = some files) :
    ∃ fd, (submitForm doc outcome app).2 = [("/api/process", fd)] ∧
      lookupField fd "lang"
        = some (match doc.langVal with | none => "en" | some s => if s = "" then "en" else s) ∧
      lookupField fd "top_k"
        = some (match doc.topKVal with | none => "15" | some s => if s = "" then "15" else s) ∧
      lookupField fd "ocr_engine"
        = some (match doc.ocrEngineVal with | none => "gcv" | some s => if s = "" then "gcv" else s) ∧
      (("messy", "true") ∈ fd ↔ doc.messyChecked = some true) ∧
      (doc.messyChecked ≠ some true → ∀ v, ("messy", v) ∉ fd) ∧
      (∀ f ∈ files, ("files", f) ∈ fd) := by
  have hskip : ∀ k : String, k ≠ "files" →
      lookupField (buildFormData doc files) k
        = lookupField ([("lang", jsDefault doc.langVal "en"),
            ("top_k", jsDefault doc.topKVal "15"),
            ("ocr_engine", jsDefault doc.ocrEngineVal "gcv")]
            ++ (if doc.messyChecked = some true then [("messy", "true")] else [])) k := by
    intro k hk
    unfold buildFormData
    rw [List.append_assoc]
    refine lookupField_skip _ _ k ?_
    intro p hp
    rw [List.mem_map] at hp
    obtain ⟨f, _, rfl⟩ := hp
    exact fun hh => hk hh.symm
  refine ⟨buildFormData doc files, submitForm_reqs doc outcome app files h, ?_, ?_, ?_, ?_, ?_, ?_⟩
  · rw [hskip "lang" (by decide)]; cases doc.langVal <;> rfl
  · rw [hskip "top_k" (by decide)]; cases doc.topKVal <;> rfl
  · rw [hskip "ocr_engine" (by decide)]; cases doc.ocrEngineVal <;> rfl
  · by_cases hm : doc.messyChecked = some true
    · simp [buildFormData, hm]
    · simp [buildFormData, hm]
  · intro hm v
    simp [buildFormData, hm]
  · intro f hf
    unfold buildFormData
    exact List.mem_append.mpr (Or.inl (List.mem_append.mpr (Or.inl
      (List.mem_map.mpr ⟨f, hf, rfl⟩))))

/-- Witness for C9 at the concrete one-file document with the messy
checkbox unset. -/
theorem submit_formdata_fields_witness :
    filesOf docOneFile = some ["notes.png"] ∧
    (∃ fd, (submitForm docOneFile (Except.error ()) initialApp).2 = [("/api/process", fd)] ∧
      lookupField fd "lang"
        = some (match docOneFile.langVal with | none => "en" | some s => if s = "" then "en" else s) ∧
      lookupField fd "top_k"
        = some (match docOneFile.topKVal with | none => "15" | some s => if s = "" then "15" else s) ∧
      lookupField fd "ocr_engine"
        = some (match docOneFile.ocrEngineVal with | none => "gcv" | some s => if s = "" then "gcv" else s) ∧
      (("messy", "true") ∈ fd ↔ docOneFile.messyChecked = some true) ∧
      (docOneFile.messyChecked ≠ some true → ∀ v, ("messy", v) ∉ fd) ∧
      (∀ f ∈ ["notes.png"], ("files", f) ∈ fd)) :=
  ⟨rfl, submit_formdata_fields docOneFile (Except.error ()) initialApp ["notes.png"] rfl⟩

/-!  ## Claim C8  -/

/-- The text step touches neither the visualization state nor the stored
handles. -/
theorem textStep_keeps (doc : UploadDoc) (data : Json) (app : AppState) :
    (textStep doc data app).vis = app.vis ∧
    (textStep doc data app).mindmapNetwork = app.mindmapNetwork ∧
    (textStep doc data app).flowchartNetwork = app.flowchartNetwork := by
  unfold textStep
  split <;> exact ⟨rfl, rfl, rfl⟩

/-- The concept step touches neither the visualization state nor the
stored handles. -/
theorem conceptsUpdate_keeps (doc : UploadDoc) (data : Json) (app : AppState) :
    (conceptsUpdate doc data app).vis = app.vis ∧
    (conceptsUpdate doc data app).mindmapNetwork = app.mindmapNetwork ∧
    (conceptsUpdate doc data app).flowchartNetwork = app.flowchartNetwork := by
  unfold conceptsUpdate
  repeat' split
  all_goals exact ⟨rfl, rfl, rfl⟩

/-- When the payload carries a truthy mindmap and the container exists, the
mindmap step pushes one new instance rendered into the mindmap container
with the unmodified force-directed options, stores its handle, and leaves
the flowchart handle alone. -/
theorem mindmapStep_renders (doc : UploadDoc) (data : Json) (app : AppState)
    (hm : truthy (jget (some data) "mindmap") = true) (he : doc.mindmapEl = true) :
    ∃ mmN : Network,
      (mindmapStep doc data app).vis.instances = mmN :: app.vis.instances ∧
      (mindmapStep doc data app).mindmapNetwork = some mmN.id ∧
      (mindmapStep doc data app).flowchartNetwork = app.flowchartNetwork ∧
      mmN.container = "mindmap" ∧ mmN.opts = visOptions := by
  unfold mindmapStep
  rw [hm, he]
  unfold renderNetwork
  rcases hprev : app.mindmapNetwork with _ | hdl
  · exact ⟨_, rfl, rfl, rfl, rfl, rfl⟩
  · exact ⟨_, rfl, rfl, rfl, rfl, rfl⟩

/-- When the payload carries a truthy flowchart and the container exists,
the flowchart step pushes one new instance rendered into the flowchart
container with the left-to-right hierarchical layout and physics disabled,
stores its handle, and leaves the mindmap handle alone. -/
theorem flowchartStep_renders (doc : UploadDoc) (data : Json) (app : AppState)
    (hm : truthy (jget (some data) "flowchart") = true) (he : doc.flowchartEl = true) :
    ∃ fcN : Network,
      (flowchartStep doc data app).vis.instances = fcN :: app.vis.instances ∧
      (flowchartStep doc data app).flowchartNetwork = some fcN.id ∧
      (flowchartStep doc data app).mindmapNetwork = app.mindmapNetwork ∧
      fcN.container = "flowchart" ∧
      fcN.opts.layout = some { direction := "LR", levelSeparation := 160, nodeSpacing := 80 } ∧
      fcN.opts.physics.enabled = false := by
  unfold flowchartStep
  rw [hm, he]
  unfold renderNetwork
  rcases hprev : app.flowchartNetwork with _ | hdl
  · exact ⟨_, rfl, rfl, rfl, rfl, rfl, rfl⟩
  · exact ⟨_, rfl, rfl, rfl, rfl, rfl, rfl⟩

/-- The success tail renders the two graphs with their respective layouts
and stores the two fresh handles. -/
theorem renderResults_graphs (doc : UploadDoc) (data : Json) (app : AppState)
    (hm : truthy (jget (some data) "mindmap") = true)
    (hfl : truthy (jget (some data) "flowchart") = true)
    (hme : doc.mindmapEl = true) (hfe : doc.flowchartEl = true) :
    ∃ mmN fcN : Network, ∃ rest : List Network,
      (renderResults doc data app).vis.instances = fcN :: mmN :: rest ∧
      mmN.container = "mindmap" ∧ mmN.opts = visOptions ∧
      fcN.container = "flowchart" ∧
      fcN.opts.layout = some { direction := "LR", levelSeparation := 160, nodeSpacing := 80 } ∧
      fcN.opts.physics.enabled = false ∧
      (renderResults doc data app).mindmapNetwork = some mmN.id ∧
      (renderResults doc data app).flowchartNetwork = some fcN.id := by
  obtain ⟨mmN, h1, h2, h3, hc1, ho1⟩ :=
    mindmapStep_renders doc data (conceptsUpdate doc data (textStep doc data app)) hm hme
  obtain ⟨fcN, g1, g2, g3, gc1, gl1, gp1⟩ :=
    flowchartStep_renders doc data
      (mindmapStep doc data (conceptsUpdate doc data (textStep doc data app))) hfl hfe
  refine ⟨mmN, fcN, (conceptsUpdate doc data (textStep doc data app)).vis.instances,
    ?_, hc1, ho1, gc1, gl1, gp1, ?_, ?_⟩
  · show (flowchartStep doc data (mindmapStep doc data
      (conceptsUpdate doc data (textStep doc data app)))).vis.instances = _
    rw [g1, h1]
  · show (flowchartStep doc data (mindmapStep doc data
      (conceptsUpdate doc data (textStep doc data app)))).mindmapNetwork = _
    rw [g3, h2]
  · show (flowchartStep doc data (mindmapStep doc data
      (conceptsUpdate doc data (textStep doc data app)))).flowchartNetwork = _
    exact g2

/-- Claim C8: for every successful upload response (2xx, JSON content type,
parsed body with no error field) carrying truthy mindmap and flowchart
descriptors with both containers present, the instance rendered into the
mindmap container uses the force-directed default (no hierarchical layout
block, physics enabled) and the instance rendered into the flowchart
container uses the hierarchical layout (left-to-right layered block,
physics disabled); the stored handles point at these two new instances. -/
theorem submit_layouts (doc : UploadDoc) (app : AppState) (res : Response) (data : Json)
    (files : List String)
    (hf : filesOf doc = some files)
    (hok : res.ok = true)
    (hct : ctIsJson res.contentType = true)
    (hp : res.parse = some data)
    (herr : truthy (jget (some data) "error") = false)
    (hm : truthy (jget (some data) "mindmap") = true)
    (hfl : truthy (jget (some data) "flowchart") = true)
    (hme : doc.mindmapEl = true)
    (hfe : doc.flowchartEl = true) :
    ∃ mmN fcN : Network, ∃ rest : List Network,
      (submitForm doc (Except.ok res) app).1.vis.instances = fcN :: mmN :: rest ∧
      mmN.container = "mindmap" ∧ mmN.opts.layout = none ∧
      mmN.opts.physics.enabled = true ∧
      fcN.container = "flowchart" ∧
      fcN.opts.layout = some { direction := "LR", levelSeparation := 160, nodeSpacing := 80 } ∧
      fcN.opts.physics.enabled = false ∧
      (submitForm doc (Except.ok res) app).1.mindmapNetwork = some mmN.id ∧
      (submitForm doc (Except.ok res) app).1.flowchartNetwork = some fcN.id := by
  have hcore : (submitForm doc (Except.ok res) app).1
      = { renderResults doc data { app with status := "", busy := true } with busy := false } := by
    unfold submitForm submitFormCore
    rw [hf]
    simp [hok, hct, hp, herr, Response.jsonOp]
  obtain ⟨mmN, fcN, rest, h1, hc1, ho1, gc1, gl1, gp1, h2, h3⟩ :=
    renderResults_graphs doc data { app with status := "", busy := true } hm hfl hme hfe
  refine ⟨mmN, fcN, rest, ?_, hc1, ?_, ?_, gc1, gl1, gp1, ?_, ?_⟩
  · rw [hcore]; exact h1
  · rw [ho1]; rfl
  · rw [ho1]; rfl
  · rw [hcore]; exact h2
  · rw [hcore]; exact h3

/-- Witness for C8 at a concrete successful response carrying both graph
descriptors. -/
theorem submit_layouts_witness :
    filesOf docOneFile = some ["notes.png"] ∧
    respGraphs.ok = true ∧
    ctIsJson respGraphs.contentType = true ∧
    respGraphs.parse = some dataGraphs ∧
    truthy (jget (some dataGraphs) "error") = false ∧
    truthy (jget (some dataGraphs) "mindmap") = true ∧
    truthy (jget (some dataGraphs) "flowchart") = true ∧
    docOneFile.mindmapEl = true ∧
    docOneFile.flowchartEl = true ∧
    (∃ mmN fcN : Network, ∃ rest : List Network,
      (submitForm docOneFile (Except.ok respGraphs) initialApp).1.vis.instances
        = fcN :: mmN :: rest ∧
      mmN.container = "mindmap" ∧ mmN.opts.layout = none ∧
      mmN.opts.physics.enabled = true ∧
      fcN.container = "flowchart" ∧
      fcN.opts.layout = some { direction := "LR", levelSeparation := 160, nodeSpacing := 80 } ∧
      fcN.opts.physics.enabled = false ∧
      (submitForm docOneFile (Except.ok respGraphs) initialApp).1.mindmapNetwork = some mmN.id ∧
      (submitForm docOneFile (Except.ok respGraphs) initialApp).1.flowchartNetwork = some fcN.id) :=
  ⟨rfl, rfl, rfl, rfl, rfl, rfl, rfl, rfl, rfl,
    submit_layouts docOneFile initialApp respGraphs dataGraphs ["notes.png"]
      rfl rfl rfl rfl rfl rfl rfl rfl rfl⟩

/-!  ## Claim C3 : exclusive per-container ownership  -/

/-- The page invariant only mentions the visualization state and the two
stored handles, so it transports along agreement on those fields. -/
theorem appInv_of_eq (a b : AppState) (hv : b.vis = a.vis)
    (hm : b.mindmapNetwork = a.mindmapNetwork)
    (hf : b.flowchartNetwork = a.flowchartNetwork)
    (h : AppInv a) : AppInv b := by
  unfold AppInv at h ⊢
  rw [hv, hm, hf]
  exact h

/-- The core render step preserves the ownership picture: after rendering
into container `c` over the stored handle, identifiers are still fresh and
distinct, the returned handle owns `c`, the other container's stored handle
still owns it, and exactly one instance — constructed in `c` — was pushed. -/
theorem renderNetwork_preserves (c c' : String) (hne : c' ≠ c)
    (st : VisState) (stored stored' : Option Nat) (g : Graph) (hier : Bool)
    (hfr : freshIds st) (hdi : distinctIds st)
    (ho : ownsC st stored c) (ho' : ownsC st stored' c') :
    freshIds (renderNetwork (some c) stored g hier st).2 ∧
    distinctIds (renderNetwork (some c) stored g hier st).2 ∧
    ownsC (renderNetwork (some c) stored g hier st).2
      (renderNetwork (some c) stored g hier st).1 c ∧
    ownsC (renderNetwork (some c) stored g hier st).2 stored' c' ∧
    (∃ netw : Network, netw.container = c ∧
      (renderNetwork (some c) stored g hier st).2.instances = netw :: st.instances) := by
  obtain ⟨hoA, hoB, hoC⟩ := ho
  obtain ⟨hoA', hoB', hoC'⟩ := ho'
  rcases stored with _ | p
  all_goals refine ⟨?_, ?_, ⟨?_, ?_, ?_⟩, ⟨?_, ?_, ?_⟩, ?_⟩
  -- stored = none
  · intro n hn
    rcases List.mem_cons.mp hn with h | h
    · rw [h]; exact Nat.lt_succ_self st.nextId
    · exact Nat.lt_succ_of_lt (hfr n h)
  · refine List.Pairwise.cons ?_ hdi
    intro m hm hEq
    have hlt := hfr m hm
    have : st.nextId = m.id := hEq
    omega
  · intro n hn hcn
    rcases List.mem_cons.mp hn with h | h
    · right; rw [h]; rfl
    · rcases hoA n h hcn with hd | habs
      · left; exact hd
      · exact absurd habs (by simp)
  · intro hh hEq
    injection hEq with hE
    have hE2 : st.nextId = hh := hE
    rw [← hE2]
    exact Nat.lt_succ_self st.nextId
  · intro hh hEq n hn hid
    injection hEq with hE
    have hE2 : st.nextId = hh := hE
    rcases List.mem_cons.mp hn with h | h
    · rw [h]
    · exfalso
      have hlt := hfr n h
      rw [hid, ← hE2] at hlt
      omega
  · intro n hn hcn
    rcases List.mem_cons.mp hn with h | h
    · exfalso
      rw [h] at hcn
      exact hne hcn.symm
    · exact hoA' n h hcn
  · intro hh hEq
    exact Nat.lt_succ_of_lt (hoB' hh hEq)
  · intro hh hEq n hn hid
    rcases List.mem_cons.mp hn with h | h
    · exfalso
      have hlt := hoB' hh hEq
      rw [h] at hid
      have hE2 : st.nextId = hh := hid
      omega
    · exact hoC' hh hEq n h hid
  · exact ⟨_, rfl, rfl⟩
  -- stored = some p
  · intro n hn
    rcases List.mem_cons.mp hn with h | h
    · rw [h]; exact Nat.lt_succ_self st.nextId
    · exact Nat.lt_succ_of_lt (hfr n h)
  · refine List.Pairwise.cons ?_ hdi
    intro m hm hEq
    have hlt := hfr m hm
    have : st.nextId = m.id := hEq
    omega
  · intro n hn hcn
    rcases List.mem_cons.mp hn with h | h
    · right; rw [h]; rfl
    · rcases hoA n h hcn with hd | hs
      · left; exact List.mem_cons_of_mem _ hd
      · left
        injection hs with hs2
        rw [← hs2]
        exact List.mem_cons_self _ _
  · intro hh hEq
    injection hEq with hE
    have hE2 : st.nextId = hh := hE
    rw [← hE2]
    exact Nat.lt_succ_self st.nextId
  · intro hh hEq n hn hid
    injection hEq with hE
    have hE2 : st.nextId = hh := hE
    rcases List.mem_cons.mp hn with h | h
    · rw [h]
    · exfalso
      have hlt := hfr n h
      rw [hid, ← hE2] at hlt
      omega
  · intro n hn hcn
    rcases List.mem_cons.mp hn with h | h
    · exfalso
      rw [h] at hcn
      exact hne hcn.symm
    · rcases hoA' n h hcn with hd | hs
      · left; exact List.mem_cons_of_mem _ hd
      · right; exact hs
  · intro hh hEq
    exact Nat.lt_succ_of_lt (hoB' hh hEq)
  · intro hh hEq n hn hid
    rcases List.mem_cons.mp hn with h | h
    · exfalso
      have hlt := hoB' hh hEq
      rw [h] at hid
      have hE2 : st.nextId = hh := hid
      omega
    · exact hoC' hh hEq n h hid
  · exact ⟨_, rfl, rfl⟩

/-- The mindmap rendering step preserves the page invariant. -/
theorem mindmapStep_preservesInv (doc : UploadDoc) (data : Json) (app : AppState)
    (h : AppInv app) : AppInv (mindmapStep doc data app) := by
  unfold mindmapStep
  split
  · obtain ⟨hfr, hdi, hom, hof, hcont⟩ := h
    obtain ⟨hfr2, hdi2, hom2, hof2, netw, hcN, hshape⟩ :=
      renderNetwork_preserves "mindmap" "flowchart" (by decide)
        app.vis app.mindmapNetwork app.flowchartNetwork (graphOf data "mindmap") false
        hfr hdi hom hof
    refine ⟨hfr2, hdi2, hom2, hof2, ?_⟩
    intro n hn
    rw [hshape] at hn
    rcases List.mem_cons.mp hn with h2 | h2
    · left; rw [h2]; exact hcN
    · exact hcont n h2
  · exact h

/-- The flowchart rendering step preserves the page invariant. -/
theorem flowchartStep_preservesInv (doc : UploadDoc) (data : Json) (app : AppState)
    (h : AppInv app) : AppInv (flowchartStep doc data app) := by
  unfold flowchartStep
  split
  · obtain ⟨hfr, hdi, hom, hof, hcont⟩ := h
    obtain ⟨hfr2, hdi2, hof2, hom2, netw, hcN, hshape⟩ :=
      renderNetwork_preserves "flowchart" "mindmap" (by decide)
        app.vis app.flowchartNetwork app.mindmapNetwork (graphOf data "flowchart") true
        hfr hdi hof hom
    refine ⟨hfr2, hdi2, hom2, hof2, ?_⟩
    intro n hn
    rw [hshape] at hn
    rcases List.mem_cons.mp hn with h2 | h2
    · right; rw [h2]; exact hcN
    · exact hcont n h2
  · exact h

/-- The success tail preserves the page invariant. -/
theorem renderResults_preservesInv (doc : UploadDoc) (data : Json) (app : AppState)
    (h : AppInv app) : AppInv (renderResults doc data app) := by
  have h1 : AppInv (textStep doc data app) :=
    appInv_of_eq app _ (textStep_keeps doc data app).1
      (textStep_keeps doc data app).2.1 (textStep_keeps doc data app).2.2 h
  have h2 : AppInv (conceptsUpdate doc data (textStep doc data app)) :=
    appInv_of_eq _ _ (conceptsUpdate_keeps doc data _).1
      (conceptsUpdate_keeps doc data _).2.1 (conceptsUpdate_keeps doc data _).2.2 h1
  have h3 := mindmapStep_preservesInv doc data _ h2
  have h4 := flowchartStep_preservesInv doc data _ h3
  exact appInv_of_eq _ _ rfl rfl rfl h4

/-- Every run of the upload handler either only touches the status text and
busy flag, or reaches the success tail on some parsed payload.  (In both
cases the handler ends with the busy flag cleared.) -/
theorem submitForm_state (doc : UploadDoc) (outcome : FetchOutcome) (app : AppState) :
    (∃ s, (submitForm doc outcome app).1 = { app with status := s, busy := false }) ∨
    (∃ data, (submitForm doc outcome app).1
      = { renderResults doc data { app with status := "", busy := true }
          with busy := false }) := by
  unfold submitForm submitFormCore
  rcases hf : filesOf doc with _ | files
  · left; exact ⟨_, rfl⟩
  · rcases outcome with u | res
    · left; exact ⟨_, rfl⟩
    · simp only []
      repeat' split
      all_goals first
        | (left; exact ⟨_, rfl⟩)
        | (right; exact ⟨_, rfl⟩)
        | simp_all

/-- One run of the upload handler preserves the page invariant. -/
theorem submitForm_preservesInv (doc : UploadDoc) (outcome : FetchOutcome) (app : AppState)
    (h : AppInv app) : AppInv (submitForm doc outcome app).1 := by
  rcases submitForm_state doc outcome app with ⟨s, hs⟩ | ⟨data, hs⟩
  · rw [hs]
    exact appInv_of_eq app _ rfl rfl rfl h
  · rw [hs]
    have h1 : AppInv { app with status := "", busy := true } :=
      appInv_of_eq app _ rfl rfl rfl h
    have h2 := renderResults_preservesInv doc data _ h1
    exact appInv_of_eq _ _ rfl rfl rfl h2

/-- The page invariant holds at load. -/
theorem appInv_initial : AppInv initialApp := by
  unfold AppInv initialApp freshIds distinctIds ownsC
  simp

/-- Any submission sequence preserves the page invariant. -/
theorem runUploads_preservesInv (inputs : List (UploadDoc × FetchOutcome))
    (app : AppState) (h : AppInv app) : AppInv (runUploads inputs app) := by
  induction inputs generalizing app with
  | nil => exact h
  | cons p rest ih => exact ih _ (submitForm_preservesInv p.1 p.2 app h)

/-- Under ownership, every live instance in the container carries the
stored handle's identifier. -/
theorem liveAt_sub_stored (st : VisState) (stored : Option Nat) (c : String)
    (ho : ownsC st stored c) : ∀ n ∈ st.liveAt c, stored = some n.id := by
  intro n hn
  unfold VisState.liveAt at hn
  have h1 := List.mem_filter.mp hn
  have h2 := of_decide_eq_true h1.2
  rcases ho.1 n h1.1 h2.1 with hd | hstored
  · exact absurd hd h2.2
  · exact hstored

/-- Under ownership and distinct identifiers, at most one instance is live
in the container. -/
theorem liveAt_len_le_one (st : VisState) (stored : Option Nat) (c : String)
    (hdi : distinctIds st) (ho : ownsC st stored c) :
    (st.liveAt c).length ≤ 1 := by
  rcases hl : st.liveAt c with _ | ⟨a, _ | ⟨b, t⟩⟩
  · simp
  · simp
  · exfalso
    have ha : a ∈ st.liveAt c := by rw [hl]; exact List.mem_cons_self _ _
    have hb : b ∈ st.liveAt c := by
      rw [hl]; exact List.mem_cons_of_mem _ (List.mem_cons_self _ _)
    have hsa := liveAt_sub_stored st stored c ho a ha
    have hsb := liveAt_sub_stored st stored c ho b hb
    have hid : a.id = b.id := Option.some.inj (hsa.symm.trans hsb)
    have hsub : List.Sublist (st.liveAt c) st.instances := List.filter_sublist st.instances
    have hpw := List.Pairwise.sublist hsub hdi
    rw [hl] at hpw
    rcases List.pairwise_cons.mp hpw with ⟨hfst, _⟩
    exact hfst b (List.mem_cons_self _ _) hid

/-- A container other than the two graph containers never holds a live
instance. -/
theorem liveAt_nil_of_containers (st : VisState) (c : String)
    (hcont : ∀ n ∈ st.instances, n.container = "mindmap" ∨ n.container = "flowchart")
    (h1 : c ≠ "mindmap") (h2 : c ≠ "flowchart") : st.liveAt c = [] := by
  unfold VisState.liveAt
  rw [List.filter_eq_nil_iff]
  intro n hn
  intro hdec
  have h3 := of_decide_eq_true hdec
  rcases hcont n hn with h | h
  · rw [h3.1] at h; exact h1 h
  · rw [h3.1] at h; exact h2 h

/-- Claim C3: across every submission sequence from page load, at most one
live rendered instance exists per container at any point, the live instance
in each graph container (when there is one) is exactly the one the stored
per-container handle names, and a render step over an existing previous
handle destroys that handle and returns the freshly constructed instance in
its place. -/
theorem render_exclusive_ownership :
    (∀ inputs : List (UploadDoc × FetchOutcome), ∀ c : String,
      (((runUploads inputs initialApp).vis).liveAt c).length ≤ 1) ∧
    (∀ inputs : List (UploadDoc × FetchOutcome),
      ∀ n ∈ ((runUploads inputs initialApp).vis).liveAt "mindmap",
        (runUploads inputs initialApp).mindmapNetwork = some n.id) ∧
    (∀ inputs : List (UploadDoc × FetchOutcome),
      ∀ n ∈ ((runUploads inputs initialApp).vis).liveAt "flowchart",
        (runUploads inputs initialApp).flowchartNetwork = some n.id) ∧
    (∀ (c : String) (p : Nat) (g : Graph) (hier : Bool) (st : VisState),
      p ∈ ((renderNetwork (some c) (some p) g hier st).2).destroyed ∧
      (renderNetwork (some c) (some p) g hier st).1 = some st.nextId ∧
      ((renderNetwork (some c) (some p) g hier st).2).instances.length
        = st.instances.length + 1) := by
  have hrun : ∀ inputs, AppInv (runUploads inputs initialApp) :=
    fun inputs => runUploads_preservesInv inputs initialApp appInv_initial
  refine ⟨?_, ?_, ?_, ?_⟩
  · intro inputs c
    obtain ⟨hfr, hdi, hom, hof, hcont⟩ := hrun inputs
    by_cases h1 : c = "mindmap"
    · subst h1; exact liveAt_len_le_one _ _ _ hdi hom
    · by_cases h2 : c = "flowchart"
      · subst h2; exact liveAt_len_le_one _ _ _ hdi hof
      · rw [liveAt_nil_of_containers _ c hcont h1 h2]; simp
  · intro inputs n hn
    obtain ⟨_, _, hom, _, _⟩ := hrun inputs
    exact liveAt_sub_stored _ _ _ hom n hn
  · intro inputs n hn
    obtain ⟨_, _, _, hof, _⟩ := hrun inputs
    exact liveAt_sub_stored _ _ _ hof n hn
  · intro c p g hier st
    exact ⟨List.mem_cons_self _ _, rfl, rfl⟩

/-- Witness for C3: after one concrete successful upload, the mindmap
container holds exactly the one live instance the stored handle names, and
the theorem's membership hypothesis is discharged at it. -/
theorem render_exclusive_ownership_witness :
    ((runUploads [(docOneFile, Except.ok respGraphs)] initialApp).vis).liveAt "mindmap"
      = [mmNetFirst] ∧
    (runUploads [(docOneFile, Except.ok respGraphs)] initialApp).mindmapNetwork
      = some mmNetFirst.id :=
  ⟨rfl,
    render_exclusive_ownership.2.1 [(docOneFile, Except.ok respGraphs)] mmNetFirst
      (List.mem_cons_self mmNetFirst [])⟩
